import Mathlib

/-!
Verification of the Product/Supplier Resolution Engine of the BotLM
repository (src/main.py, src/import_articles_from_sheets.py).

Conventions of the embedding:
* Calendar dates are day numbers (`Nat`), counted from an epoch that falls
  on a Monday, so `isoWeekday d = d % 7 + 1` agrees with Python's
  `datetime.isoweekday()` (1 = Monday .. 7 = Sunday).  `datetime.now()` is
  passed in as the explicit `today` parameter.
* Python strings are Lean `String`s.  `str.strip` is `pyStrip`,
  `str.isdigit` is `pyIsdigit` (ASCII digits; the claims only involve
  ASCII data), `int(...)` on a digit string is `pyInt`, truthiness of a
  string is non-emptiness.
* Python's `sorted(...)` is `pySorted` (insertion sort), and
  `sorted(list(set(...)))` is `sortedSet` (dedup-insertion sort); both
  compute by structural recursion so concrete instances evaluate.
* Python functions that can raise and whose callers catch the exception
  and return `None` are modelled with `Option`: the `none` result stands
  for the raised-and-caught exception.
* The SQLite `articles` table is a `List Product`; `fetchone` on a
  `WHERE full_key = ?` query is `List.find?`, and
  `WHERE full_key LIKE 'a%' ORDER BY full_key LIMIT 1` is the minimum,
  in byte-wise (codepoint) order, of the rows whose key starts with `a`.
  The per-shop supplier tables are a function from shop id to row list;
  a missing table behaves like an empty one (the sqlite3 error is caught
  and turned into `None` by the source).
-/

namespace BotLM

/-- ISO weekday of a day number, with day 0 a Monday (1 = Mon .. 7 = Sun). -/
def isoWeekday (d : Nat) : Nat := d % 7 + 1

/-- Model of Python `str.strip()` (ASCII whitespace). -/
def pyStrip (s : String) : String :=
  String.mk (((s.data.dropWhile Char.isWhitespace).reverse.dropWhile
    Char.isWhitespace).reverse)

/-- Model of Python `str.isdigit()` (non-empty, all ASCII digits). -/
def pyIsdigit (s : String) : Bool :=
  !s.data.isEmpty && s.data.all Char.isDigit

/-- Model of Python string truthiness (`if value`). -/
def pyTruthy (s : String) : Bool := !s.data.isEmpty

/-- Model of Python `int(...)` on a string of decimal digits. -/
def pyInt (s : String) : Nat :=
  s.data.foldl (fun acc c => acc * 10 + (c.toNat - '0'.toNat)) 0

/-- One insertion step of Python's `sorted` on a `List Nat`. -/
def insort (x : Nat) : List Nat → List Nat
  | [] => [x]
  | y :: ys => if x ≤ y then x :: y :: ys else y :: insort x ys

/-- Model of Python `sorted(...)` on a `List Nat` (duplicates kept). -/
def pySorted (l : List Nat) : List Nat := l.foldr insort []

/-- One insertion step of `sortedSet`: insert keeping strict order. -/
def insortDedup (x : Nat) : List Nat → List Nat
  | [] => [x]
  | y :: ys =>
    if x < y then x :: y :: ys
    else if x = y then y :: ys
    else y :: insortDedup x ys

/-- Model of Python `sorted(list(set(...)))` on a `List Nat`. -/
def sortedSet (l : List Nat) : List Nat := l.foldr insortDedup []

/-- Model of Python `min(...)` on a `List Nat`; `none` stands for the
`ValueError` raised on an empty list. -/
def listMin : List Nat → Option Nat
  | [] => none
  | x :: xs => some (xs.foldl Nat.min x)

/-- Raw supplier-schedule row, as returned by the per-shop SQLite table
`"Даты выходов заказов <shop>"` (all values read back as strings). -/
structure ScheduleRecord where
  supplierCode : String
  supplierName : String
  orderDay1 : String
  orderDay2 : String
  orderDay3 : String
  deliveryRaw : String
  deriving DecidableEq

/-- Parsed supplier data, the return value of `parse_supplier_data`. -/
structure SupplierData where
  supplier_id : String
  order_days : List Nat
  delivery_days : Nat
  deriving DecidableEq

/-- Embedding of `parse_supplier_data` (src/main.py): each of the three
order-day fields is stripped, kept only when non-empty and all digits,
then the collected days are deduplicated and sorted
(`sorted(list(set(order_days)))`); the lead time defaults to 0 when not
a digit string. -/
def parse_supplier_data (record : ScheduleRecord) : SupplierData :=
  let order_days :=
    [record.orderDay1, record.orderDay2, record.orderDay3].filterMap
      (fun v0 =>
        let v := pyStrip v0
        if pyTruthy v && pyIsdigit v then some (pyInt v) else none)
  let dd := pyStrip record.deliveryRaw
  { supplier_id := record.supplierCode
    order_days := sortedSet order_days
    delivery_days := if pyIsdigit dd then pyInt dd else 0 }

/-- Embedding of the order-day selection loop of `calculate_delivery_date`
(src/main.py): scan `sorted(order_days)` for the first day `≥ w`; the
Python guard `if not nearest_day` treats both `None` and `0` as missing
and falls back to `min(order_days)` (which raises on an empty list,
modelled by `none`). -/
def nearest_day (order_days : List Nat) (w : Nat) : Option Nat :=
  match (pySorted order_days).find? (fun d => decide (w ≤ d)) with
  | some d => if d = 0 then listMin order_days else some d
  | none => listMin order_days

/-- Embedding of `calculate_delivery_date` (src/main.py).  The source
formats the two dates with `strftime`; the model returns the day numbers.
`none` models the uncaught `ValueError` when `order_days` is empty. -/
def calculate_delivery_date (supplier_data : SupplierData) (today : Nat) :
    Option (Nat × Nat) :=
  let current_weekday := isoWeekday today
  match nearest_day supplier_data.order_days current_weekday with
  | none => none
  | some nearest =>
    let delta_days := (((nearest : Int) - (current_weekday : Int)) % 7).toNat
    let order_date := today + delta_days
    let delivery_date := order_date + supplier_data.delivery_days
    some (order_date, delivery_date)

/-- Specification-side definition, following the spec's words: among the
order weekdays pick the smallest value `≥ w`; if none exists, the
smallest value in the set. -/
def chosenDaySpec (days : List Nat) (w : Nat) : Option Nat :=
  match listMin (days.filter (fun d => decide (w ≤ d))) with
  | some m => some m
  | none => listMin days

/-- A row of the SQLite `articles` table (src/import_articles_from_sheets.py
`prepare_db`).  `get_product_data_from_db` renames these columns to the
Russian keys expected by `get_product_info`; the structure serves as both
shapes. -/
structure Product where
  full_key : String
  article_code : String
  store_number : String
  department : String
  name : String
  gamma : String
  supplier_code : String
  supplier_name : String
  is_top_store : Nat
  deriving DecidableEq

/-- Byte-wise strict order on char lists, SQLite's BINARY collation on
the ASCII data appearing in keys. -/
def lexLt : List Char → List Char → Bool
  | [], [] => false
  | [], _ :: _ => true
  | _ :: _, [] => false
  | a :: as, b :: bs => if a < b then true else if a = b then lexLt as bs else false

/-- Does the char list `p` occur at the start of `s`?  Models SQL
`LIKE 'p%'` on the wildcard-free article strings of this system. -/
def isPrefixList : List Char → List Char → Bool
  | [], _ => true
  | _ :: _, [] => false
  | a :: as, b :: bs => a = b && isPrefixList as bs

/-- Model of `ORDER BY full_key LIMIT 1`: the row with the least
`full_key`. -/
def sqlMinByKey : List Product → Option Product
  | [] => none
  | x :: xs =>
    some (xs.foldl (fun acc p => if lexLt p.full_key.data acc.full_key.data then p else acc) x)

/-- Embedding of `get_product_data_from_db` (src/main.py): first an exact
lookup of `full_key = article + shop`; on a miss, the first row, in
`full_key` order, whose `full_key` starts with the article
(`LIKE 'article%' ORDER BY full_key LIMIT 1`). -/
def get_product_data_from_db (db : List Product) (article shop : String) :
    Option Product :=
  let full_key_exact := article ++ shop
  match db.find? (fun p => p.full_key == full_key_exact) with
  | some row => some row
  | none => sqlMinByKey (db.filter (fun p => isPrefixList article.data p.full_key.data))

/-- Embedding of `get_supplier_data_from_db` (src/main.py): normalize the
supplier id, refuse an empty one, then fetch the first row of the shop's
schedule table with that supplier code.  A missing table raises
`sqlite3.Error` in the source, which is caught and turned into `None`;
the model represents it as an empty table. -/
def get_supplier_data_from_db (tables : String → List ScheduleRecord)
    (supplier_id shop : String) : Option ScheduleRecord :=
  let sid := pyStrip supplier_id
  if sid = "" then none
  else (tables shop).find? (fun r => r.supplierCode == sid)

/-- The answer assembled by `get_product_info`.  The source's
`'Не определена (поставщик не найден)'` date strings are the `none`
dates here, and the source's `str(...)` of the top flag is kept as the
number itself. -/
structure ProductInfo where
  article : String
  name : String
  department : String
  shop : String
  supplier : String
  top : Nat
  order_date : Option Nat
  delivery_date : Option Nat
  supplier_number : Option String
  deriving DecidableEq

/-- The identical fallback dictionary built by the two degraded branches
of `get_product_info` (no supplier code / supplier not found): supplier
tag `'Товар РЦ'`, no dates. -/
def baseInfo (article shop : String) (product_data : Product) : ProductInfo :=
  { article := article
    name := product_data.name
    department := product_data.department
    shop := shop
    supplier := "Товар РЦ"
    top := product_data.is_top_store
    order_date := none
    delivery_date := none
    supplier_number := none }

/-- Embedding of `get_product_info` (src/main.py).  The function body sits
in a `try`/`except` returning `None`; the only raising step reachable
from it is `min([])` inside `calculate_delivery_date`, so the `none`
of `calculate_delivery_date` propagates to a `none` overall. -/
def get_product_info (db : List Product) (tables : String → List ScheduleRecord)
    (today : Nat) (article shop : String) : Option ProductInfo :=
  match get_product_data_from_db db article shop with
  | none => none
  | some product_data =>
    if pyStrip product_data.supplier_code = "" then
      some (baseInfo article shop product_data)
    else
      match get_supplier_data_from_db tables (pyStrip product_data.supplier_code) shop with
      | none => some (baseInfo article shop product_data)
      | some supplier_data =>
        match calculate_delivery_date (parse_supplier_data supplier_data) today with
        | none => none
        | some (order_date, delivery_date) =>
          some { article := article
                 name := product_data.name
                 department := product_data.department
                 shop := shop
                 supplier := pyStrip supplier_data.supplierName
                 top := product_data.is_top_store
                 order_date := some order_date
                 delivery_date := some delivery_date
                 supplier_number := some (pyStrip product_data.supplier_code) }

/-- A raw Google-Sheets row as read by `import_data`
(src/import_articles_from_sheets.py); `row["..."]` on a missing column
raises `KeyError`, so a present row has all the columns. -/
structure SheetRow where
  key : String
  article : String
  store : String
  department : String
  name : String
  gamma : String
  supplierCode : String
  supplierName : String
  topStore : String
  deriving DecidableEq

/-- The tuple `import_data` prepares from one sheet row: every field
stripped, the top flag compared against `"1"`. -/
def prepareRow (r : SheetRow) : Product :=
  { full_key := pyStrip r.key
    article_code := pyStrip r.article
    store_number := pyStrip r.store
    department := pyStrip r.department
    name := pyStrip r.name
    gamma := pyStrip r.gamma
    supplier_code := pyStrip r.supplierCode
    supplier_name := pyStrip r.supplierName
    is_top_store := if pyStrip r.topStore = "1" then 1 else 0 }

/-- Embedding of `import_data` (src/import_articles_from_sheets.py): the
table is deleted and every incoming row — without any well-formedness
check — is prepared and inserted. -/
def import_data (records : List SheetRow) : List Product :=
  records.map prepareRow

/-- The process-wide cache, restricted to its observable contents: an
association list from key to the cached user rows (each row kept as an
opaque string; the source stores a pickle blob).  The `LRUCache`
recency/eviction bookkeeping is not observable by the claims (the claims
never exceed the 500-entry capacity) and is omitted. -/
abbrev Cache : Type := List (String × List String)

/-- Model of the assignment `cache[k] = v`: replace the entry if the key
is present, else append. -/
def cacheSet (c : Cache) (k : String) (v : List String) : Cache :=
  if (c.map Prod.fst).contains k
  then c.map (fun e => if e.1 = k then (k, v) else e)
  else c ++ [(k, v)]

/-- Embedding of `preload_cache` (src/main.py).  `fetch` is the outcome of
`users_sheet.get_all_records()`.  The whole body is wrapped in
`try`/`except` that only logs, so a failed fetch leaves the cache as it
was and the function never raises; the returned flag records whether the
success log line was reached. -/
def preload_cache (fetch : Except String (List String)) (cache : Cache) :
    Cache × Bool :=
  match fetch with
  | Except.ok records => (cacheSet cache "users_data" records, true)
  | Except.error _ => (cache, false)

/-- Embedding of `handle_cache_refresh` (src/main.py): `cache.clear()`,
then `preload_cache`, then the success answer.  Neither step can raise
(`preload_cache` swallows its errors), so the handler's `except` branch
that would report `"❌ Ошибка обновления кэша"` is unreachable for
backing-store failures. -/
def handle_cache_refresh (fetch : Except String (List String)) (_cache : Cache) :
    Cache × String :=
  let cleared : Cache := []
  let r := preload_cache fetch cleared
  (r.1, "✅ Кэш успешно обновлен!")

/-- One iteration of `scheduled_cache_update` (src/main.py): call
`preload_cache` and, whatever happened, keep going (errors are logged). -/
def scheduled_cache_update_step (fetch : Except String (List String))
    (cache : Cache) : Cache :=
  (preload_cache fetch cache).1

/-- Cache states observable by concurrent readers around an
admin-triggered refresh.  `preload_cache` contains no `await` (the
gspread fetch is a synchronous call and `profile_memory` is a
synchronous wrapper), so under asyncio's cooperative scheduling the
whole `cache.clear()`-and-rebuild sequence of `handle_cache_refresh`
runs without suspension: a concurrent reader observes only the state
before the handler ran and the state the handler publishes.  When the
fetch fails, that published state is the cleared, empty cache. -/
def admin_refresh_trace (fetch : Except String (List String)) (cache : Cache) :
    List Cache :=
  [cache, (preload_cache fetch ([] : Cache)).1]

/-- Cache states observable by concurrent readers around one scheduled
refresh step: `preload_cache` runs without suspension and clears
nothing, so a reader observes the old cache before the step and the
result of the single assignment after it. -/
def scheduled_refresh_trace (fetch : Except String (List String)) (cache : Cache) :
    List Cache :=
  [cache, (preload_cache fetch cache).1]

/-- Concrete schedule used by several witnesses: order days Mon/Wed/Fri,
two days of lead time. -/
def sdExample : SupplierData :=
  { supplier_id := "S1", order_days := [1, 3, 5], delivery_days := 2 }

/-- Concrete stored product with a supplier code, at key `("12345", "7")`. -/
def prodC3 : Product :=
  { full_key := "123457", article_code := "12345", store_number := "7"
    department := "3", name := "Widget", gamma := "A"
    supplier_code := "S1", supplier_name := "Supp", is_top_store := 1 }

/-- One-row catalog holding `prodC3`. -/
def dbC3 : List Product := [prodC3]

/-- Schedule row for supplier S1 whose order-day tokens are all
malformed (non-digit, empty, whitespace). -/
def schedC3bad : ScheduleRecord :=
  { supplierCode := "S1", supplierName := "Supp", orderDay1 := "x"
    orderDay2 := "", orderDay3 := " ", deliveryRaw := "3" }

/-- Well-formed schedule row for supplier S1: order days Tue/Thu, three
days of lead time. -/
def schedC3good : ScheduleRecord :=
  { supplierCode := "S1", supplierName := "Supp", orderDay1 := "2"
    orderDay2 := "4", orderDay3 := "", deliveryRaw := "3" }

/-- Schedule tables for shop 7 holding only the malformed row. -/
def tablesC3 : String → List ScheduleRecord := fun s =>
  if s = "7" then [schedC3bad] else []

/-- Schedule tables for shop 7 holding only the well-formed row. -/
def tablesC3good : String → List ScheduleRecord := fun s =>
  if s = "7" then [schedC3good] else []

/-- Concrete stored product with an empty supplier code. -/
def prodC4 : Product :=
  { full_key := "99901", article_code := "999", store_number := "01"
    department := "2", name := "Plain", gamma := "B"
    supplier_code := "", supplier_name := "", is_top_store := 0 }

/-- One-row catalog holding `prodC4`. -/
def dbC4 : List Product := [prodC4]

/-- Schedule tables with no rows for any shop. -/
def tablesEmpty : String → List ScheduleRecord := fun _ => []

/-- Stored product whose article code `"12345"` strictly extends the
query `"1234"`; its full key `"123451"` starts with `"1234"`. -/
def prodExt : Product :=
  { full_key := "123451", article_code := "12345", store_number := "1"
    department := "1", name := "Long", gamma := "A"
    supplier_code := "", supplier_name := "", is_top_store := 0 }

/-- Stored product for article `"1234"` at shop `"7"`. -/
def prodSame : Product :=
  { full_key := "12347", article_code := "1234", store_number := "7"
    department := "1", name := "Exact", gamma := "A"
    supplier_code := "", supplier_name := "", is_top_store := 0 }

/-- Two-row catalog where the two keys above coexist. -/
def dbC6 : List Product := [prodExt, prodSame]

/-- A well-formed sheet row. -/
def rowGood : SheetRow :=
  { key := "A1", article := "A", store := "1", department := "d"
    name := "n", gamma := "g", supplierCode := "s", supplierName := "sn"
    topStore := "1" }

/-- A malformed sheet row: its article is empty. -/
def rowBad : SheetRow :=
  { key := "B1", article := "", store := "1", department := "d"
    name := "n", gamma := "g", supplierCode := "s", supplierName := "sn"
    topStore := "0" }

/-! ### Helper lemmas about the executable list primitives -/

lemma foldl_min_le_init (xs : List Nat) (x : Nat) : xs.foldl Nat.min x ≤ x := by
  induction xs generalizing x with
  | nil => simp
  | cons y ys ih =>
    simpa using le_trans (ih (Nat.min x y)) (Nat.min_le_left x y)

lemma foldl_min_le_mem (xs : List Nat) (x : Nat) :
    ∀ y ∈ xs, xs.foldl Nat.min x ≤ y := by
  induction xs generalizing x with
  | nil => simp
  | cons z zs ih =>
    intro y hy
    simp only [List.foldl_cons]
    rcases List.mem_cons.mp hy with rfl | hy
    · exact le_trans (foldl_min_le_init zs (Nat.min x y)) (Nat.min_le_right x y)
    · exact ih (Nat.min x z) y hy

lemma foldl_min_mem (xs : List Nat) (x : Nat) :
    xs.foldl Nat.min x = x ∨ xs.foldl Nat.min x ∈ xs := by
  induction xs generalizing x with
  | nil => simp
  | cons y ys ih =>
    simp only [List.foldl_cons]
    rcases ih (Nat.min x y) with h | h
    · rcases Nat.le_total x y with hxy | hxy
      · left
        rw [h]
        exact Nat.min_eq_left hxy
      · right
        rw [h]
        have hxy2 : Nat.min x y = y := Nat.min_eq_right hxy
        rw [hxy2]
        exact List.mem_cons_self y ys
    · right
      exact List.mem_cons_of_mem y h

lemma listMin_spec {l : List Nat} {m : Nat} (h : listMin l = some m) :
    m ∈ l ∧ ∀ y ∈ l, m ≤ y := by
  cases l with
  | nil => simp [listMin] at h
  | cons x xs =>
    simp only [listMin, Option.some.injEq] at h
    subst h
    constructor
    · rcases foldl_min_mem xs x with h | h
      · rw [h]
        exact List.mem_cons_self x xs
      · exact List.mem_cons_of_mem x h
    · intro y hy
      rcases List.mem_cons.mp hy with rfl | hy
      · exact foldl_min_le_init xs y
      · exact foldl_min_le_mem xs x y hy

lemma listMin_isSome {l : List Nat} (h : l ≠ []) : ∃ m, listMin l = some m := by
  cases l with
  | nil => exact absurd rfl h
  | cons x xs => exact ⟨_, rfl⟩

lemma listMin_eq_of_least {l : List Nat} {m : Nat} (hm : m ∈ l)
    (hleast : ∀ y ∈ l, m ≤ y) : listMin l = some m := by
  obtain ⟨m', hm'⟩ := listMin_isSome (l := l) (by rintro rfl; simp at hm)
  obtain ⟨hm'mem, hm'le⟩ := listMin_spec hm'
  rw [hm', le_antisymm (hm'le m hm) (hleast m' hm'mem)]

lemma insort_perm (x : Nat) (l : List Nat) : (insort x l).Perm (x :: l) := by
  induction l with
  | nil => simp [insort]
  | cons y ys ih =>
    simp only [insort]
    by_cases h : x ≤ y
    · simp [h]
    · rw [if_neg h]
      exact ((List.perm_cons y).mpr ih).trans (List.Perm.swap x y ys)

lemma insort_sorted (x : Nat) {l : List Nat} (h : l.Sorted (· ≤ ·)) :
    (insort x l).Sorted (· ≤ ·) := by
  induction l with
  | nil => simp [insort]
  | cons y ys ih =>
    rw [List.sorted_cons] at h
    obtain ⟨hy, hys⟩ := h
    simp only [insort]
    by_cases hxy : x ≤ y
    · rw [if_pos hxy, List.sorted_cons]
      refine ⟨?_, List.sorted_cons.mpr ⟨hy, hys⟩⟩
      intro b hb
      rcases List.mem_cons.mp hb with rfl | hb
      · exact hxy
      · exact le_trans hxy (hy b hb)
    · rw [if_neg hxy, List.sorted_cons]
      refine ⟨?_, ih hys⟩
      intro b hb
      rcases List.mem_cons.mp ((insort_perm x ys).mem_iff.mp hb) with rfl | hb'
      · omega
      · exact hy b hb'

lemma pySorted_perm (l : List Nat) : (pySorted l).Perm l := by
  induction l with
  | nil => exact List.Perm.refl []
  | cons x xs ih =>
    simp only [pySorted, List.foldr_cons]
    exact (insort_perm x (xs.foldr insort [])).trans ((List.perm_cons x).mpr ih)

lemma pySorted_sorted (l : List Nat) : (pySorted l).Sorted (· ≤ ·) := by
  induction l with
  | nil => simp [pySorted]
  | cons x xs ih =>
    simp only [pySorted, List.foldr_cons]
    exact insort_sorted x ih

lemma insortDedup_mem (x a : Nat) (l : List Nat) :
    a ∈ insortDedup x l ↔ a = x ∨ a ∈ l := by
  induction l with
  | nil => simp [insortDedup]
  | cons y ys ih =>
    simp only [insortDedup]
    by_cases h1 : x < y
    · simp [h1]
    · rw [if_neg h1]
      by_cases h2 : x = y
      · subst h2
        rw [if_pos rfl]
        simp only [List.mem_cons]
        tauto
      · rw [if_neg h2]
        simp only [List.mem_cons, ih]
        tauto

lemma insortDedup_sorted (x : Nat) {l : List Nat} (h : l.Sorted (· < ·)) :
    (insortDedup x l).Sorted (· < ·) := by
  induction l with
  | nil => simp [insortDedup]
  | cons y ys ih =>
    rw [List.sorted_cons] at h
    obtain ⟨hy, hys⟩ := h
    simp only [insortDedup]
    by_cases h1 : x < y
    · rw [if_pos h1, List.sorted_cons]
      refine ⟨?_, List.sorted_cons.mpr ⟨hy, hys⟩⟩
      intro b hb
      rcases List.mem_cons.mp hb with rfl | hb
      · exact h1
      · exact lt_trans h1 (hy b hb)
    · rw [if_neg h1]
      by_cases h2 : x = y
      · rw [if_pos h2]
        exact List.sorted_cons.mpr ⟨hy, hys⟩
      · rw [if_neg h2, List.sorted_cons]
        refine ⟨?_, ih hys⟩
        intro b hb
        rcases (insortDedup_mem x b ys).mp hb with rfl | hb
        · omega
        · exact hy b hb

lemma sortedSet_sorted (l : List Nat) : (sortedSet l).Sorted (· < ·) := by
  induction l with
  | nil => simp [sortedSet]
  | cons x xs ih =>
    simp only [sortedSet, List.foldr_cons]
    exact insortDedup_sorted x ih

lemma sortedSet_mem (l : List Nat) (a : Nat) : a ∈ sortedSet l ↔ a ∈ l := by
  induction l with
  | nil => simp [sortedSet]
  | cons x xs ih =>
    simp only [sortedSet, List.foldr_cons] at ih ⊢
    rw [insortDedup_mem, ih, List.mem_cons]

lemma find?_sorted_least {l : List Nat} {w d : Nat} (hs : l.Sorted (· ≤ ·))
    (h : l.find? (fun x => decide (w ≤ x)) = some d) :
    d ∈ l ∧ w ≤ d ∧ ∀ e ∈ l, w ≤ e → d ≤ e := by
  induction l with
  | nil => simp [List.find?] at h
  | cons a tl ih =>
    rw [List.sorted_cons] at hs
    obtain ⟨ha, htl⟩ := hs
    by_cases hpa : w ≤ a
    · rw [List.find?_cons_of_pos _ (by simpa using hpa)] at h
      injection h with h
      subst h
      refine ⟨List.mem_cons_self _ _, hpa, ?_⟩
      intro e he _
      rcases List.mem_cons.mp he with rfl | he
      · exact le_refl _
      · exact ha e he
    · rw [List.find?_cons_of_neg _ (by simpa using hpa)] at h
      obtain ⟨hmem, hwd, hleast⟩ := ih htl h
      refine ⟨List.mem_cons_of_mem _ hmem, hwd, ?_⟩
      intro e he hwe
      rcases List.mem_cons.mp he with rfl | he
      · exact absurd hwe hpa
      · exact hleast e he hwe

lemma nearest_day_eq_chosenDaySpec (days : List Nat) (w : Nat) (hw : 1 ≤ w) :
    nearest_day days w = chosenDaySpec days w := by
  unfold nearest_day chosenDaySpec
  cases hf : (pySorted days).find? (fun d => decide (w ≤ d)) with
  | none =>
    have hnone : ∀ x ∈ pySorted days, ¬ (w ≤ x) := by
      intro x hx
      simpa using List.find?_eq_none.mp hf x hx
    have hfil : days.filter (fun d => decide (w ≤ d)) = [] := by
      rw [List.filter_eq_nil_iff]
      intro a ha
      simpa using hnone a ((pySorted_perm days).mem_iff.mpr ha)
    rw [hfil]
    simp [listMin]
  | some d =>
    obtain ⟨hmem, hwd, hleast⟩ := find?_sorted_least (pySorted_sorted days) hf
    have hd0 : ¬ (d = 0) := by omega
    have hfl : listMin (days.filter (fun d => decide (w ≤ d))) = some d := by
      apply listMin_eq_of_least
      · rw [List.mem_filter]
        exact ⟨(pySorted_perm days).mem_iff.mp hmem, by simpa using hwd⟩
      · intro y hy
        rw [List.mem_filter] at hy
        exact hleast y ((pySorted_perm days).mem_iff.mpr hy.1) (by simpa using hy.2)
    rw [hfl]
    simp [hd0]

lemma chosenDaySpec_mem {days : List Nat} (w : Nat) (h : days ≠ []) :
    ∃ c, chosenDaySpec days w = some c ∧ c ∈ days := by
  unfold chosenDaySpec
  cases hf : listMin (days.filter (fun d => decide (w ≤ d))) with
  | some m =>
    exact ⟨m, rfl, (List.mem_filter.mp (listMin_spec hf).1).1⟩
  | none =>
    obtain ⟨m, hm⟩ := listMin_isSome h
    exact ⟨m, hm, (listMin_spec hm).1⟩

/-! ### Claims C1 and C2: the Delivery-Date Calculator -/

/-- C1: for every non-empty set of order weekdays (each in 1..7), every
lead time and every date `today`, `calculate_delivery_date` picks the
smallest scheduled weekday `≥ isoWeekday today`, wrapping to the smallest
scheduled weekday when none exists, and returns
`orderDate = today + (chosen - isoWeekday today) mod 7` and
`deliveryDate = orderDate + leadTime`. -/
theorem c1_calculate_delivery_date_algorithm (sd : SupplierData) (t : Nat)
    (hne : sd.order_days ≠ [])
    (_hrange : ∀ d ∈ sd.order_days, 1 ≤ d ∧ d ≤ 7) :
    ∃ chosen, chosenDaySpec sd.order_days (isoWeekday t) = some chosen ∧
      calculate_delivery_date sd t =
        some (t + (((chosen : Int) - (isoWeekday t : Int)) % 7).toNat,
          t + (((chosen : Int) - (isoWeekday t : Int)) % 7).toNat
            + sd.delivery_days) := by
  obtain ⟨c, hc, hcm⟩ := chosenDaySpec_mem (isoWeekday t) hne
  refine ⟨c, hc, ?_⟩
  simp only [calculate_delivery_date]
  rw [nearest_day_eq_chosenDaySpec _ _ (by unfold isoWeekday; omega), hc]

/-- C1 witness: the spec's boundary example, weekday set Mon/Wed/Fri
queried on a Saturday (day 5, `isoWeekday = 6`) wraps to Monday, two days
forward. -/
theorem c1_witness :
    sdExample.order_days ≠ [] ∧ (∀ d ∈ sdExample.order_days, 1 ≤ d ∧ d ≤ 7) ∧
    ∃ chosen, chosenDaySpec sdExample.order_days (isoWeekday 5) = some chosen ∧
      calculate_delivery_date sdExample 5 =
        some (5 + (((chosen : Int) - (isoWeekday 5 : Int)) % 7).toNat,
          5 + (((chosen : Int) - (isoWeekday 5 : Int)) % 7).toNat
            + sdExample.delivery_days) :=
  ⟨by decide, by decide,
    c1_calculate_delivery_date_algorithm sdExample 5 (by decide) (by decide)⟩

/-- C2: for every schedule with a non-empty weekday set (ISO weekdays
1..7) and every date `today`, the order date returned by
`calculate_delivery_date` is `≥ today` and its ISO weekday is a member of
the schedule's weekday set. -/
theorem c2_order_date_weekday_member (sd : SupplierData) (t : Nat)
    (hne : sd.order_days ≠ [])
    (hrange : ∀ d ∈ sd.order_days, 1 ≤ d ∧ d ≤ 7) :
    ∃ od dd, calculate_delivery_date sd t = some (od, dd) ∧
      t ≤ od ∧ isoWeekday od ∈ sd.order_days := by
  obtain ⟨c, hc, hcm⟩ := chosenDaySpec_mem (isoWeekday t) hne
  simp only [calculate_delivery_date]
  rw [nearest_day_eq_chosenDaySpec _ _ (by unfold isoWeekday; omega), hc]
  refine ⟨_, _, rfl, Nat.le_add_right _ _, ?_⟩
  obtain ⟨hc1, hc7⟩ := hrange c hcm
  have hiso : isoWeekday (t + (((c : Int) - (isoWeekday t : Int)) % 7).toNat) = c := by
    unfold isoWeekday
    omega
  rw [hiso]
  exact hcm

/-- C2 witness: the Mon/Wed/Fri schedule queried on a Tuesday (day 1,
`isoWeekday = 2`). -/
theorem c2_witness :
    sdExample.order_days ≠ [] ∧ (∀ d ∈ sdExample.order_days, 1 ≤ d ∧ d ≤ 7) ∧
    ∃ od dd, calculate_delivery_date sdExample 1 = some (od, dd) ∧
      1 ≤ od ∧ isoWeekday od ∈ sdExample.order_days :=
  ⟨by decide, by decide,
    c2_order_date_weekday_member sdExample 1 (by decide) (by decide)⟩

/-! ### Helper lemmas about the database lookup functions -/

lemma lexLt_irrefl (a : List Char) : lexLt a a = false := by
  induction a with
  | nil => rfl
  | cons x xs ih =>
    simp only [lexLt]
    rw [if_neg (lt_irrefl x)]
    simp [ih]

lemma lexLt_trans {a b c : List Char} (hab : lexLt a b = true)
    (hbc : lexLt b c = true) : lexLt a c = true := by
  induction a generalizing b c with
  | nil =>
    cases b with
    | nil => simp [lexLt] at hab
    | cons y ys =>
      cases c with
      | nil => simp [lexLt] at hbc
      | cons z zs => rfl
  | cons x xs ih =>
    cases b with
    | nil => simp [lexLt] at hab
    | cons y ys =>
      cases c with
      | nil => simp [lexLt] at hbc
      | cons z zs =>
        simp only [lexLt] at hab hbc ⊢
        by_cases h1 : x < y
        · by_cases h2 : y < z
          · rw [if_pos (lt_trans h1 h2)]
          · rw [if_neg h2] at hbc
            by_cases h3 : y = z
            · subst h3
              rw [if_pos h1]
            · rw [if_neg h3] at hbc
              exact absurd hbc (by simp)
        · rw [if_neg h1] at hab
          by_cases h3 : x = y
          · subst h3
            rw [if_pos rfl] at hab
            by_cases h2 : x < z
            · rw [if_pos h2]
            · rw [if_neg h2] at hbc ⊢
              by_cases h4 : x = z
              · subst h4
                rw [if_pos rfl] at hbc ⊢
                exact ih hab hbc
              · rw [if_neg h4] at hbc
                exact absurd hbc (by simp)
          · rw [if_neg h3] at hab
            exact absurd hab (by simp)

lemma lexLt_connex {a b : List Char} (h : lexLt a b = false) :
    lexLt b a = true ∨ a = b := by
  induction a generalizing b with
  | nil =>
    cases b with
    | nil => exact Or.inr rfl
    | cons y ys => simp [lexLt] at h
  | cons x xs ih =>
    cases b with
    | nil => exact Or.inl rfl
    | cons y ys =>
      simp only [lexLt] at h ⊢
      by_cases h1 : x < y
      · rw [if_pos h1] at h
        exact absurd h (by simp)
      · rw [if_neg h1] at h
        by_cases h2 : x = y
        · subst h2
          rw [if_pos rfl] at h
          rcases ih h with h3 | h3
          · left
            rw [if_neg (lt_irrefl x), if_pos rfl]
            exact h3
          · right
            rw [h3]
        · have h3 : y < x := by
            rcases lt_trichotomy x y with hlt | heq | hgt
            · exact absurd hlt h1
            · exact absurd heq h2
            · exact hgt
          left
          rw [if_pos h3]

lemma foldl_minKey_mem (xs : List Product) (x : Product) :
    xs.foldl (fun acc p => if lexLt p.full_key.data acc.full_key.data then p else acc) x = x ∨
    xs.foldl (fun acc p => if lexLt p.full_key.data acc.full_key.data then p else acc) x ∈ xs := by
  induction xs generalizing x with
  | nil => simp
  | cons y ys ih =>
    simp only [List.foldl_cons]
    rcases ih (if lexLt y.full_key.data x.full_key.data then y else x) with h | h
    · rw [h]
      by_cases hc : lexLt y.full_key.data x.full_key.data
      · right
        rw [if_pos hc]
        exact List.mem_cons_self y ys
      · left
        rw [if_neg hc]
    · right
      exact List.mem_cons_of_mem y h

lemma sqlMinByKey_mem {l : List Product} {p : Product}
    (h : sqlMinByKey l = some p) : p ∈ l := by
  cases l with
  | nil => simp [sqlMinByKey] at h
  | cons x xs =>
    simp only [sqlMinByKey, Option.some.injEq] at h
    subst h
    rcases foldl_minKey_mem xs x with h | h
    · rw [h]
      exact List.mem_cons_self x xs
    · exact List.mem_cons_of_mem x h

lemma sqlMinByKey_isSome {l : List Product} (h : l ≠ []) :
    ∃ p, sqlMinByKey l = some p := by
  cases l with
  | nil => exact absurd rfl h
  | cons x xs => exact ⟨_, rfl⟩

lemma foldl_minKey_least (xs : List Product) (x : Product) :
    ∀ q ∈ x :: xs, lexLt q.full_key.data
      ((xs.foldl (fun acc p =>
        if lexLt p.full_key.data acc.full_key.data then p else acc)
          x).full_key.data) = false := by
  induction xs generalizing x with
  | nil =>
    intro q hq
    rw [List.mem_singleton.mp hq]
    exact lexLt_irrefl _
  | cons y ys ih =>
    intro q hq
    simp only [List.foldl_cons]
    by_cases hc : lexLt y.full_key.data x.full_key.data = true
    · rw [if_pos hc]
      rcases List.mem_cons.mp hq with heq | hq'
      · rw [heq]
        have hy := ih y y (List.mem_cons_self y ys)
        by_contra hcon
        rw [Bool.not_eq_false] at hcon
        have htr := lexLt_trans hc hcon
        rw [hy] at htr
        exact absurd htr (by simp)
      · rcases List.mem_cons.mp hq' with heq | hq''
        · rw [heq]
          exact ih y y (List.mem_cons_self y ys)
        · exact ih y q (List.mem_cons_of_mem y hq'')
    · rw [if_neg hc]
      rcases List.mem_cons.mp hq with heq | hq'
      · rw [heq]
        exact ih x x (List.mem_cons_self x ys)
      · rcases List.mem_cons.mp hq' with heq | hq''
        · rw [heq]
          simp only [Bool.not_eq_true] at hc
          rcases lexLt_connex hc with h3 | h3
          · have hx := ih x x (List.mem_cons_self x ys)
            by_contra hcon
            rw [Bool.not_eq_false] at hcon
            have htr := lexLt_trans h3 hcon
            rw [hx] at htr
            exact absurd htr (by simp)
          · rw [h3]
            exact ih x x (List.mem_cons_self x ys)
        · exact ih x q (List.mem_cons_of_mem x hq'')

lemma sqlMinByKey_least {l : List Product} {p : Product}
    (h : sqlMinByKey l = some p) :
    ∀ q ∈ l, lexLt q.full_key.data p.full_key.data = false := by
  cases l with
  | nil => simp [sqlMinByKey] at h
  | cons x xs =>
    simp only [sqlMinByKey, Option.some.injEq] at h
    subst h
    exact foldl_minKey_least xs x

lemma find?_eq_some_of_unique {db : List Product} {p : Product} {k : String}
    (hmem : p ∈ db) (hkey : p.full_key = k)
    (huniq : ∀ q ∈ db, q.full_key = k → q = p) :
    db.find? (fun q => q.full_key == k) = some p := by
  have hsome : (db.find? (fun q => q.full_key == k)).isSome := by
    rw [List.find?_isSome]
    exact ⟨p, hmem, by simp [hkey]⟩
  obtain ⟨q, hq⟩ := Option.isSome_iff_exists.mp hsome
  have h1 : q.full_key = k := by simpa using List.find?_some hq
  have h2 : q ∈ db := List.mem_of_find?_eq_some hq
  rw [hq, huniq q h2 h1]

lemma get_product_data_exact {db : List Product} {p : Product}
    {article shop : String} (hmem : p ∈ db)
    (hkey : p.full_key = article ++ shop)
    (huniq : ∀ q ∈ db, q.full_key = article ++ shop → q = p) :
    get_product_data_from_db db article shop = some p := by
  simp only [get_product_data_from_db]
  rw [find?_eq_some_of_unique hmem hkey huniq]

/-! ### Claims C3, C4, C6, C10: the Resolution Pipeline -/

/-- C3 counterexample: the pair `("12345", "7")` is present in the
catalog (as `prodC3`), yet `get_product_info` returns `None`: the
supplier's schedule row exists but all its order-day tokens are
malformed, so `parse_supplier_data` yields an empty weekday set and
`min([])` raises inside `calculate_delivery_date`; the `except` of
`get_product_info` turns that into `None`. -/
theorem c3_counterexample :
    prodC3 ∈ dbC3 ∧ prodC3.full_key = "12345" ++ "7" ∧
    prodC3.article_code = "12345" ∧ prodC3.store_number = "7" ∧
    get_product_info dbC3 tablesC3 0 "12345" "7" = none := by
  decide

/-- C3 (amended): for every `(article, shop)` pair present in the catalog
index — provided the stored product's supplier, if it has one with a
schedule row, parses to a non-empty order-day set — `get_product_info`
returns a result whose article, shop, name and department equal those of
the stored product. -/
theorem c3_amended_resolve_matches_stored (db : List Product)
    (tables : String → List ScheduleRecord) (today : Nat)
    (article shop : String) (p : Product)
    (hmem : p ∈ db) (hkey : p.full_key = article ++ shop)
    (huniq : ∀ q ∈ db, q.full_key = article ++ shop → q = p)
    (hart : p.article_code = article) (hshop : p.store_number = shop)
    (hsched : ∀ r, get_supplier_data_from_db tables (pyStrip p.supplier_code) shop = some r →
      (parse_supplier_data r).order_days ≠ []) :
    ∃ res, get_product_info db tables today article shop = some res ∧
      res.article = p.article_code ∧ res.shop = p.store_number ∧
      res.name = p.name ∧ res.department = p.department := by
  have hfound := get_product_data_exact hmem hkey huniq
  simp only [get_product_info, hfound]
  by_cases hsid : pyStrip p.supplier_code = ""
  · rw [if_pos hsid]
    exact ⟨_, rfl, hart.symm, hshop.symm, rfl, rfl⟩
  · rw [if_neg hsid]
    cases hs : get_supplier_data_from_db tables (pyStrip p.supplier_code) shop with
    | none => exact ⟨_, rfl, hart.symm, hshop.symm, rfl, rfl⟩
    | some r =>
      obtain ⟨c, hc, hcm⟩ := chosenDaySpec_mem (isoWeekday today) (hsched r hs)
      have hcd : calculate_delivery_date (parse_supplier_data r) today =
          some (today + (((c : Int) - (isoWeekday today : Int)) % 7).toNat,
            today + (((c : Int) - (isoWeekday today : Int)) % 7).toNat
              + (parse_supplier_data r).delivery_days) := by
        simp only [calculate_delivery_date]
        rw [nearest_day_eq_chosenDaySpec _ _ (by unfold isoWeekday; omega), hc]
      simp only [hcd]
      exact ⟨_, rfl, hart.symm, hshop.symm, rfl, rfl⟩

/-- C3 witness: the same product resolved against a well-formed schedule
table. -/
theorem c3_witness :
    prodC3 ∈ dbC3 ∧ prodC3.full_key = "12345" ++ "7" ∧
    (∀ q ∈ dbC3, q.full_key = "12345" ++ "7" → q = prodC3) ∧
    (∀ r, get_supplier_data_from_db tablesC3good (pyStrip prodC3.supplier_code) "7" = some r →
      (parse_supplier_data r).order_days ≠ []) ∧
    ∃ res, get_product_info dbC3 tablesC3good 3 "12345" "7" = some res ∧
      res.article = prodC3.article_code ∧ res.shop = prodC3.store_number ∧
      res.name = prodC3.name ∧ res.department = prodC3.department :=
  ⟨by decide, by decide, by decide,
    by
      intro r hr
      have h2 : some schedC3good = some r := hr
      cases h2
      decide,
    c3_amended_resolve_matches_stored dbC3 tablesC3good 3 "12345" "7" prodC3
      (by decide) (by decide) (by decide) (by decide) (by decide)
      (by
        intro r hr
        have h2 : some schedC3good = some r := hr
        cases h2
        decide)⟩

/-- C4: whenever a product is found but its supplier code is empty, or
the shop's schedule table has no row for that code, `get_product_info`
returns the non-error degraded result: supplier tagged `'Товар РЦ'`
(central distribution), no order or delivery dates, and no exception
(it returns `some`, never propagating an error). -/
theorem c4_no_supplier_degraded (db : List Product)
    (tables : String → List ScheduleRecord) (today : Nat)
    (article shop : String) (p : Product)
    (hfound : get_product_data_from_db db article shop = some p)
    (hdeg : pyStrip p.supplier_code = "" ∨
      get_supplier_data_from_db tables (pyStrip p.supplier_code) shop = none) :
    ∃ res, get_product_info db tables today article shop = some res ∧
      res.supplier = "Товар РЦ" ∧ res.order_date = none ∧
      res.delivery_date = none := by
  simp only [get_product_info, hfound]
  rcases hdeg with h | h
  · rw [if_pos h]
    exact ⟨_, rfl, rfl, rfl, rfl⟩
  · by_cases hsid : pyStrip p.supplier_code = ""
    · rw [if_pos hsid]
      exact ⟨_, rfl, rfl, rfl, rfl⟩
    · rw [if_neg hsid, h]
      exact ⟨_, rfl, rfl, rfl, rfl⟩

/-- C4 witness: a product with an empty supplier code, and empty schedule
tables. -/
theorem c4_witness :
    get_product_data_from_db dbC4 "999" "01" = some prodC4 ∧
    (pyStrip prodC4.supplier_code = "" ∨
      get_supplier_data_from_db tablesEmpty (pyStrip prodC4.supplier_code) "01" = none) ∧
    ∃ res, get_product_info dbC4 tablesEmpty 0 "999" "01" = some res ∧
      res.supplier = "Товар РЦ" ∧ res.order_date = none ∧
      res.delivery_date = none :=
  ⟨by decide, by decide,
    c4_no_supplier_degraded dbC4 tablesEmpty 0 "999" "01" prodC4
      (by decide) (by decide)⟩

/-- C6 counterexample: querying `("1234", "9")` against a catalog holding
both a row for article `"1234"` at shop `"7"` (`prodSame`) and a row for
the longer article `"12345"` at shop `"1"` (`prodExt`): the exact key
misses, a same-article row exists at another shop, yet the fallback
returns `prodExt`, a different article, because `"123451" < "12347"` in
key order — not "that Product". -/
theorem c6_counterexample :
    prodSame ∈ dbC6 ∧ prodSame.full_key = "1234" ++ "7" ∧
    prodSame.article_code = "1234" ∧
    (∀ q ∈ dbC6, q.full_key ≠ "1234" ++ "9") ∧
    get_product_data_from_db dbC6 "1234" "9" = some prodExt ∧
    prodExt ≠ prodSame ∧ prodExt.article_code ≠ "1234" := by
  decide

/-- C6 (amended): on an exact-key miss, `get_product_data_from_db` falls
back to prefix matching: if any stored full key starts with the queried
article (in particular a same-article row under another shop), it returns
the stored row with the smallest such full key — not `NotFound` — which
need not be the same-article row (the smallest key can belong to a
different article extending the query); when no stored full key starts
with the article, it returns `NotFound` (`none`). -/
theorem c6_amended_fallback_any_shop (db : List Product)
    (article shop : String)
    (hmiss : ∀ q ∈ db, q.full_key ≠ article ++ shop) :
    ((∃ q ∈ db, isPrefixList article.data q.full_key.data = true) →
      ∃ p, get_product_data_from_db db article shop = some p ∧ p ∈ db ∧
        isPrefixList article.data p.full_key.data = true ∧
        ∀ q ∈ db, isPrefixList article.data q.full_key.data = true →
          lexLt q.full_key.data p.full_key.data = false) ∧
    ((∀ q ∈ db, isPrefixList article.data q.full_key.data = false) →
      get_product_data_from_db db article shop = none) := by
  have hf : db.find? (fun p => p.full_key == article ++ shop) = none := by
    rw [List.find?_eq_none]
    intro q hq
    simpa using hmiss q hq
  constructor
  · rintro ⟨q, hq, hpre⟩
    have hne : db.filter (fun p => isPrefixList article.data p.full_key.data) ≠ [] := by
      intro hnil
      have := List.filter_eq_nil_iff.mp hnil q hq
      simp [hpre] at this
    obtain ⟨p, hp⟩ := sqlMinByKey_isSome hne
    refine ⟨p, ?_, (List.mem_filter.mp (sqlMinByKey_mem hp)).1,
      (List.mem_filter.mp (sqlMinByKey_mem hp)).2, ?_⟩
    · simp only [get_product_data_from_db, hf]
      exact hp
    · intro q' hq' hq'pre
      exact sqlMinByKey_least hp q' (List.mem_filter.mpr ⟨hq', hq'pre⟩)
  · intro hnone
    have hfil : db.filter (fun p => isPrefixList article.data p.full_key.data) = [] := by
      rw [List.filter_eq_nil_iff]
      intro a ha
      simp [hnone a ha]
    simp only [get_product_data_from_db, hf, hfil]
    rfl

/-- C6 witness: the two-row catalog of the counterexample discharges both
implications, minimality of the returned key included. -/
theorem c6_witness :
    (∀ q ∈ dbC6, q.full_key ≠ "1234" ++ "9") ∧
    (((∃ q ∈ dbC6, isPrefixList "1234".data q.full_key.data = true) →
      ∃ p, get_product_data_from_db dbC6 "1234" "9" = some p ∧ p ∈ dbC6 ∧
        isPrefixList "1234".data p.full_key.data = true ∧
        ∀ q ∈ dbC6, isPrefixList "1234".data q.full_key.data = true →
          lexLt q.full_key.data p.full_key.data = false) ∧
    ((∀ q ∈ dbC6, isPrefixList "1234".data q.full_key.data = false) →
      get_product_data_from_db dbC6 "1234" "9" = none)) :=
  ⟨by decide, c6_amended_fallback_any_shop dbC6 "1234" "9" (by decide)⟩

/-- C10: querying article `"1234"` at shop `"9"` against a catalog whose
only row is the article `"12345"` at shop `"1"`: the exact key misses and
the `LIKE '1234%'` fallback returns that row, whose article code strictly
extends the queried digits. -/
theorem c10_fallback_returns_extending_article :
    (∀ q ∈ [prodExt], q.full_key ≠ "1234" ++ "9") ∧
    get_product_data_from_db [prodExt] "1234" "9" = some prodExt ∧
    prodExt.article_code ≠ "1234" ∧
    isPrefixList "1234".data prodExt.full_key.data = true := by
  decide

/-! ### Claim C5: the Catalog Index Builder (import_data) -/

/-- C5 counterexample: `import_data` does not skip rows with an empty
article: a two-row input with one malformed row (empty article) yields
two inserted rows, the malformed one included, and no row is excluded. -/
theorem c5_counterexample :
    pyStrip rowBad.article = "" ∧
    (import_data [rowGood, rowBad]).length = 2 ∧
    prepareRow rowBad ∈ import_data [rowGood, rowBad] ∧
    (prepareRow rowBad).article_code = "" := by
  decide

/-- C5 (amended): `import_data` inserts every incoming row — malformed
rows with an empty article or shop included, so the excluded count is
always zero — and, when the stripped keys are pairwise distinct, the
built table has exactly N rows with N distinct addressable full keys. -/
theorem c5_amended_all_rows_imported (records : List SheetRow)
    (hnodup : (records.map (fun r => pyStrip r.key)).Nodup) :
    (import_data records).length = records.length ∧
    ((import_data records).map (fun p => p.full_key)).Nodup ∧
    ∀ r ∈ records, prepareRow r ∈ import_data records := by
  refine ⟨by simp [import_data], ?_, ?_⟩
  · have hmaps : (import_data records).map (fun p => p.full_key) =
        records.map (fun r => pyStrip r.key) := by
      simp only [import_data, List.map_map]
      rfl
    rw [hmaps]
    exact hnodup
  · intro r hr
    exact List.mem_map_of_mem prepareRow hr

/-- C5 witness: the two-row input of the counterexample, whose stripped
keys are distinct. -/
theorem c5_witness :
    (([rowGood, rowBad].map (fun r => pyStrip r.key)).Nodup) ∧
    ((import_data [rowGood, rowBad]).length = [rowGood, rowBad].length ∧
      ((import_data [rowGood, rowBad]).map (fun p => p.full_key)).Nodup ∧
      ∀ r ∈ [rowGood, rowBad], prepareRow r ∈ import_data [rowGood, rowBad]) :=
  ⟨by decide, c5_amended_all_rows_imported [rowGood, rowBad] (by decide)⟩

/-! ### Claims C7 and C8: the Cache Refresh paths -/

/-- C7 counterexample: an admin-triggered refresh whose backing-store
read fails still answers `"✅ Кэш успешно обновлен!"` — the error is
swallowed inside `preload_cache` — and the previously cached data,
cleared up front, is lost rather than retained. -/
theorem c7_counterexample :
    (handle_cache_refresh (Except.error "network down")
      [("users_data", ["old"])]).2 = "✅ Кэш успешно обновлен!" ∧
    (handle_cache_refresh (Except.error "network down")
      [("users_data", ["old"])]).1 = [] :=
  ⟨rfl, rfl⟩

/-- C7 (amended): a backing-store failure is caught and logged inside
`preload_cache` for both triggers: the scheduled refresh keeps the
previous cache, while the admin-triggered refresh — having cleared the
cache first — ends with an empty cache and still reports success to the
admin; no error is surfaced to the caller in either case. -/
theorem c7_amended_failure_swallowed (e : String) (cache : Cache) :
    preload_cache (Except.error e) cache = (cache, false) ∧
    scheduled_cache_update_step (Except.error e) cache = cache ∧
    handle_cache_refresh (Except.error e) cache =
      ([], "✅ Кэш успешно обновлен!") :=
  ⟨rfl, rfl, rfl⟩

/-- C8 counterexample: an admin-triggered refresh whose backing-store
read fails publishes the cleared, empty cache — the old index is
discarded before anything new is built, and since the swallowed failure
leaves nothing to publish, a concurrent reader thereafter observes an
empty cache, neither the complete old data nor any complete new data. -/
theorem c8_counterexample :
    ([] : Cache) ∈ admin_refresh_trace (Except.error "network down")
      [("users_data", ["old"])] ∧
    ([] : Cache) ≠ [("users_data", ["old"])] ∧
    admin_refresh_trace (Except.error "network down")
      [("users_data", ["old"])] = [[("users_data", ["old"])], []] ∧
    (handle_cache_refresh (Except.error "network down")
      [("users_data", ["old"])]).1 = [] := by
  decide

/-- C8 (amended): because `preload_cache` never suspends, a concurrent
reader observes only the cache state before a refresh and the state the
refresh publishes, for both triggers — intermediate rebuild states are
unobservable.  The scheduled refresh therefore publishes old-or-new
only; but the admin-triggered refresh clears the cache first, so on a
failed fetch the state it publishes is the empty cache: the old index is
discarded without a new one being published. -/
theorem c8_amended_refresh_observability (fetch : Except String (List String))
    (e : String) (cache : Cache) :
    (∀ s ∈ scheduled_refresh_trace fetch cache,
      s = cache ∨ s = scheduled_cache_update_step fetch cache) ∧
    (∀ s ∈ admin_refresh_trace fetch cache,
      s = cache ∨ s = (handle_cache_refresh fetch cache).1) ∧
    (handle_cache_refresh (Except.error e) cache).1 = [] := by
  refine ⟨?_, ?_, rfl⟩
  · intro s hs
    simp only [scheduled_refresh_trace, List.mem_cons,
      List.not_mem_nil, or_false] at hs
    rcases hs with rfl | rfl
    · exact Or.inl rfl
    · exact Or.inr rfl
  · intro s hs
    simp only [admin_refresh_trace, List.mem_cons,
      List.not_mem_nil, or_false] at hs
    rcases hs with rfl | rfl
    · exact Or.inl rfl
    · exact Or.inr rfl

/-! ### Claim C9: the schedule-row parser -/

/-- C9: for every raw schedule row, the parsed order-day list is strictly
sorted (hence deduplicated), and a number appears in it exactly when one
of the three order-day fields, stripped, is a non-empty digit token with
that value — malformed tokens are dropped silently and the row as a whole
always parses. -/
theorem c9_parse_supplier_data_weekdays (r : ScheduleRecord) :
    (parse_supplier_data r).order_days.Sorted (· < ·) ∧
    (parse_supplier_data r).order_days.Nodup ∧
    ∀ n, n ∈ (parse_supplier_data r).order_days ↔
      ∃ tok ∈ [r.orderDay1, r.orderDay2, r.orderDay3],
        (pyTruthy (pyStrip tok) && pyIsdigit (pyStrip tok)) = true ∧
        pyInt (pyStrip tok) = n := by
  refine ⟨sortedSet_sorted _, (sortedSet_sorted _).nodup, ?_⟩
  intro n
  simp only [parse_supplier_data]
  rw [sortedSet_mem, List.mem_filterMap]
  constructor
  · rintro ⟨a, ha, hfa⟩
    cases hcond : (pyTruthy (pyStrip a) && pyIsdigit (pyStrip a)) with
    | false =>
      simp [hcond] at hfa
    | true =>
      simp only [hcond, if_true] at hfa
      exact ⟨a, ha, hcond, by simpa using hfa⟩
  · rintro ⟨tok, htok, hcond, hval⟩
    exact ⟨tok, htok, by simp [hcond, hval]⟩

end BotLM
